import Mathlib

/-!
Shallow embedding of the i2clcd driver (src/i2clcd.c): an HD44780 character
LCD driven through a PCF8574 I2C expander in 4-bit interface mode.

Bus activity is modelled as a trace of transport-adapter events (`Ev`);
bytes returned by the bus during read transfers are supplied by an explicit
byte source, so every driver function is a pure function from its C
arguments (plus that source) to the pair of its results and its trace.
All machine integers are modelled as `Nat`; the C functions only receive
`uint8_t` payloads, which appears as `< 256` hypotheses in the theorems,
and the one place where C truncates an arithmetic result back to `uint8_t`
(`lcd_setcursor`) carries an explicit `% 256`.
-/

/-- Bit position of the register-select line on the expander byte (i2clcd.h). -/
def RS : Nat := 0

/-- Bit position of the read/write line on the expander byte (i2clcd.h). -/
def RW : Nat := 1

/-- Bit position of the enable line on the expander byte (i2clcd.h). -/
def EN : Nat := 2

/-- Bit position of the backlight line on the expander byte (i2clcd.h). -/
def BL : Nat := 3

/-- Direction bit added to the slave address for a write (i2cmaster contract). -/
def I2C_WRITE : Nat := 0

/-- Direction bit added to the slave address for a read (i2cmaster contract). -/
def I2C_READ : Nat := 1

/-- One observable action on the I2C transport adapter. -/
inductive Ev : Type
  | i2cInit
  | startWait (a : Nat)
  | wr (b : Nat)
  | stop
  | rdAck
  | rdNak
  | delayUs (n : Nat)
  | delayMs (n : Nat)
  deriving DecidableEq

/-- The per-display handle (struct i2cliquid in i2clcd.h). -/
structure i2clcd where
  lcd_address : Nat
  backlight : Nat
  cursor : Nat
  blink : Nat
  deriving DecidableEq

/-- Busy-flag query (`lcd_is_busy`).  `busByte` is the byte the bus returns
for the single non-acknowledged read; the result pair is (return value,
trace). -/
def lcd_is_busy (lcd : i2clcd) (busByte : Nat) : Nat × List Ev :=
  (busByte &&& (1 <<< 7),
   [Ev.startWait (lcd.lcd_address + I2C_WRITE),
    Ev.wr ((0 <<< RS) ||| (1 <<< RW) ||| (0 <<< EN) ||| (lcd.backlight <<< BL)),
    Ev.wr ((0 <<< RS) ||| (1 <<< RW) ||| (1 <<< EN) ||| (lcd.backlight <<< BL)),
    Ev.startWait (lcd.lcd_address + I2C_READ),
    Ev.rdNak,
    Ev.startWait (lcd.lcd_address + I2C_WRITE),
    Ev.wr ((0 <<< RS) ||| (0 <<< RW) ||| (0 <<< EN) ||| (lcd.backlight <<< BL))])

/-- Command write (`lcd_write_cmnd`): high nibble then low nibble, each with
an enable pulse, RS=0 throughout. -/
def lcd_write_cmnd (lcd : i2clcd) (data : Nat) : List Ev :=
  [Ev.startWait (lcd.lcd_address + I2C_WRITE),
   Ev.wr ((data &&& 0xF0) ||| (0 <<< RS) ||| (0 <<< RW) ||| (0 <<< EN) ||| (lcd.backlight <<< BL)),
   Ev.wr ((data &&& 0xF0) ||| (0 <<< RS) ||| (0 <<< RW) ||| (1 <<< EN) ||| (lcd.backlight <<< BL)),
   Ev.delayUs 1,
   Ev.wr ((data &&& 0xF0) ||| (0 <<< RS) ||| (0 <<< RW) ||| (0 <<< EN) ||| (lcd.backlight <<< BL)),
   Ev.stop,
   Ev.delayMs 2,
   Ev.startWait (lcd.lcd_address + I2C_WRITE),
   Ev.wr (((data &&& 0x0F) <<< 4) ||| (0 <<< RS) ||| (0 <<< RW) ||| (0 <<< EN) ||| (lcd.backlight <<< BL)),
   Ev.wr (((data &&& 0x0F) <<< 4) ||| (0 <<< RS) ||| (0 <<< RW) ||| (1 <<< EN) ||| (lcd.backlight <<< BL)),
   Ev.delayUs 1,
   Ev.wr (((data &&& 0x0F) <<< 4) ||| (0 <<< RS) ||| (0 <<< RW) ||| (0 <<< EN) ||| (lcd.backlight <<< BL)),
   Ev.stop,
   Ev.delayMs 2]

/-- Data write (`lcd_write_data`): identical to the command write except RS=1. -/
def lcd_write_data (lcd : i2clcd) (data : Nat) : List Ev :=
  [Ev.startWait (lcd.lcd_address + I2C_WRITE),
   Ev.wr ((data &&& 0xF0) ||| (1 <<< RS) ||| (0 <<< RW) ||| (0 <<< EN) ||| (lcd.backlight <<< BL)),
   Ev.wr ((data &&& 0xF0) ||| (1 <<< RS) ||| (0 <<< RW) ||| (1 <<< EN) ||| (lcd.backlight <<< BL)),
   Ev.delayUs 1,
   Ev.wr ((data &&& 0xF0) ||| (1 <<< RS) ||| (0 <<< RW) ||| (0 <<< EN) ||| (lcd.backlight <<< BL)),
   Ev.stop,
   Ev.delayMs 2,
   Ev.startWait (lcd.lcd_address + I2C_WRITE),
   Ev.wr (((data &&& 0x0F) <<< 4) ||| (1 <<< RS) ||| (0 <<< RW) ||| (0 <<< EN) ||| (lcd.backlight <<< BL)),
   Ev.wr (((data &&& 0x0F) <<< 4) ||| (1 <<< RS) ||| (0 <<< RW) ||| (1 <<< EN) ||| (lcd.backlight <<< BL)),
   Ev.delayUs 1,
   Ev.wr (((data &&& 0x0F) <<< 4) ||| (1 <<< RS) ||| (0 <<< RW) ||| (0 <<< EN) ||| (lcd.backlight <<< BL)),
   Ev.stop,
   Ev.delayMs 2]

/-- DDRAM read (`lcd_read_ddram`).  `bus` gives the byte returned by the
n-th read transfer of this call.  The C loop bound `i < len - 1` is computed
in promoted (signed) integer arithmetic, hence the `Int` subtraction.  The
first component is the list of bytes stored into the caller's buffer at
positions 0, 1, …, in order. -/
def lcd_read_ddram (lcd : i2clcd) (bus : Nat → Nat) (address len cursordir : Nat) :
    List Nat × List Ev :=
  let cursordir := cursordir &&& 1
  let nAck := ((len : Int) - 1).toNat
  ((List.range nAck).map bus ++ [bus nAck],
   lcd_write_cmnd lcd ((1 <<< 4) ||| (cursordir <<< 2)) ++
   lcd_write_cmnd lcd address ++
   [Ev.startWait (lcd.lcd_address + I2C_WRITE),
    Ev.wr ((1 <<< RS) ||| (1 <<< RW) ||| (0 <<< EN) ||| (lcd.backlight <<< BL)),
    Ev.wr ((1 <<< RS) ||| (1 <<< RW) ||| (1 <<< EN) ||| (lcd.backlight <<< BL)),
    Ev.startWait (lcd.lcd_address + I2C_READ)] ++
   List.replicate nAck Ev.rdAck ++
   [Ev.rdNak,
    Ev.startWait (lcd.lcd_address + I2C_WRITE),
    Ev.wr ((1 <<< RS) ||| (1 <<< RW) ||| (0 <<< EN) ||| (lcd.backlight <<< BL))])

/-- Custom-glyph storage (`lcd_store_char`); `pat` is the caller's 8-byte
pattern array, read at indices 0..7. -/
def lcd_store_char (lcd : i2clcd) (pat : Nat → Nat) (address : Nat) : List Ev :=
  let address := address % 8
  let char_addr := 0x40 + address * 8
  lcd_write_cmnd lcd char_addr ++
    ((List.range 8).map (fun i => lcd_write_data lcd (pat i))).flatten

/-- Custom-glyph printing (`lcd_print_char`). -/
def lcd_print_char (lcd : i2clcd) (address : Nat) : List Ev :=
  lcd_write_data lcd (address % 8)

/-- Initialization (`lcd_init`): transport setup, then the three bring-up
command writes 0x02, 0x28, 0x0C; binds address and backlight into the
handle first.  Returns the updated handle and the trace. -/
def lcd_init (lcd : i2clcd) (address bl : Nat) : i2clcd × List Ev :=
  let lcd := { lcd with lcd_address := address, backlight := bl &&& 1 }
  (lcd, Ev.i2cInit ::
    (lcd_write_cmnd lcd 0x02 ++ lcd_write_cmnd lcd 0x28 ++ lcd_write_cmnd lcd 0x0C))

/-- Cursor-style setter (`lcd_cursor`): mutates handle fields only, no bus
traffic. -/
def lcd_cursor (lcd : i2clcd) (cr bn : Nat) : i2clcd :=
  { lcd with cursor := cr &&& 1, blink := bn &&& 1 }

/-- Display off (`lcd_off`): updates the backlight flag, then one command
write of 0x08. -/
def lcd_off (lcd : i2clcd) (bl : Nat) : i2clcd × List Ev :=
  let lcd := { lcd with backlight := bl &&& 1 }
  (lcd, lcd_write_cmnd lcd 0x08)

/-- Clear (`lcd_clear`): one command write of 0x01. -/
def lcd_clear (lcd : i2clcd) : List Ev :=
  lcd_write_cmnd lcd 0x01

/-- Per-row DDRAM base-address table of `lcd_setcursor`. -/
def lines : List Nat := [0x80, 0xC0, 0x94, 0xD4]

/-- Cursor positioning (`lcd_setcursor`): one command write of
`lines[row] + col`, truncated to `uint8_t` when passed to the command
writer.  (Row values ≥ 4 read past the C array and are undefined; the
theorems only use rows 0..3.) -/
def lcd_setcursor (lcd : i2clcd) (row col : Nat) : List Ev :=
  lcd_write_cmnd lcd ((lines.getD row 0 + col) % 256)

/-- The `uint8_t`-indexed terminator scan of `lcd_print`: starting at index
`i` with `fuel` reads remaining before the 8-bit index has revisited every
cell, return the index of the first zero byte, or `none` if the loop never
terminates (the index wraps mod 256 and rereads the same 256 cells
forever). -/
def scanLoop (mem : List Nat) : Nat → Nat → Option Nat
  | _, 0 => none
  | i, fuel + 1 => if mem.getD i 0 = 0 then some i else scanLoop mem (i + 1) fuel

/-- String printing (`lcd_print`): scan for the terminator with an 8-bit
index and length, then issue one data write per counted byte.  `none`
models the scan loop never terminating. -/
def lcd_print (lcd : i2clcd) (mem : List Nat) : Option (List Ev) :=
  match scanLoop mem 0 256 with
  | none => none
  | some len => some (((List.range len).map (fun i => lcd_write_data lcd (mem.getD i 0))).flatten)

/-- Modelled from the spec (§4.2): the byte the Command/Data Framer places
on the expander for one nibble: the nibble in bits 4–7, backlight in bit 3,
enable in bit 2, RW=0 in bit 1, RS in bit 0. -/
def framerByte (nib rs en bl : Nat) : Nat := nib * 16 + bl * 8 + en * 4 + rs

/-- Modelled from the spec (§4.2): the full trace of one framed 8-bit
write: two transactions (high nibble then low nibble), each addressing the
device for write, writing the nibble byte with EN=0, EN=1, EN=0 around a
1 µs hold, closing with stop and a 2 ms settle delay. -/
def framerSpec (a rs bl b : Nat) : List Ev :=
  [Ev.startWait (a + I2C_WRITE),
   Ev.wr (framerByte (b / 16) rs 0 bl),
   Ev.wr (framerByte (b / 16) rs 1 bl),
   Ev.delayUs 1,
   Ev.wr (framerByte (b / 16) rs 0 bl),
   Ev.stop,
   Ev.delayMs 2,
   Ev.startWait (a + I2C_WRITE),
   Ev.wr (framerByte (b % 16) rs 0 bl),
   Ev.wr (framerByte (b % 16) rs 1 bl),
   Ev.delayUs 1,
   Ev.wr (framerByte (b % 16) rs 0 bl),
   Ev.stop,
   Ev.delayMs 2]

/-- Payload bytes written to the expander in a trace (the `wr` events). -/
def writesOf : List Ev → List Nat
  | [] => []
  | Ev.wr b :: t => b :: writesOf t
  | _ :: t => writesOf t

/-- Bit 3 (the backlight line) of an expander byte. -/
def bit3 (w : Nat) : Nat := (w >>> 3) &&& 1

/-- Every byte written to the expander in the trace carries `bl` on the
backlight line. -/
def BLok (bl : Nat) (t : List Ev) : Prop := ∀ w ∈ writesOf t, bit3 w = bl

/-- Recognizer for acknowledged-read events. -/
def isAck : Ev → Bool
  | Ev.rdAck => true
  | _ => false

/-- Recognizer for non-acknowledged-read events. -/
def isNak : Ev → Bool
  | Ev.rdNak => true
  | _ => false

set_option maxRecDepth 8000 in
set_option maxHeartbeats 1000000 in
/-- The eight expander-byte expressions of the source equal the framer
byte of the spec, for both nibbles, both enable levels and both RS values. -/
lemma byteEqs : ∀ bl, bl < 2 → ∀ b, b < 256 →
    ((b &&& 0xF0) ||| (0 <<< RS) ||| (0 <<< RW) ||| (0 <<< EN) ||| (bl <<< BL)
        = framerByte (b / 16) 0 0 bl)
  ∧ ((b &&& 0xF0) ||| (0 <<< RS) ||| (0 <<< RW) ||| (1 <<< EN) ||| (bl <<< BL)
        = framerByte (b / 16) 0 1 bl)
  ∧ (((b &&& 0x0F) <<< 4) ||| (0 <<< RS) ||| (0 <<< RW) ||| (0 <<< EN) ||| (bl <<< BL)
        = framerByte (b % 16) 0 0 bl)
  ∧ (((b &&& 0x0F) <<< 4) ||| (0 <<< RS) ||| (0 <<< RW) ||| (1 <<< EN) ||| (bl <<< BL)
        = framerByte (b % 16) 0 1 bl)
  ∧ ((b &&& 0xF0) ||| (1 <<< RS) ||| (0 <<< RW) ||| (0 <<< EN) ||| (bl <<< BL)
        = framerByte (b / 16) 1 0 bl)
  ∧ ((b &&& 0xF0) ||| (1 <<< RS) ||| (0 <<< RW) ||| (1 <<< EN) ||| (bl <<< BL)
        = framerByte (b / 16) 1 1 bl)
  ∧ (((b &&& 0x0F) <<< 4) ||| (1 <<< RS) ||| (0 <<< RW) ||| (0 <<< EN) ||| (bl <<< BL)
        = framerByte (b % 16) 1 0 bl)
  ∧ (((b &&& 0x0F) <<< 4) ||| (1 <<< RS) ||| (0 <<< RW) ||| (1 <<< EN) ||| (bl <<< BL)
        = framerByte (b % 16) 1 1 bl) := by decide

/-- A command write is exactly the spec framer trace with RS=0. -/
lemma cmnd_eq_framer (lcd : i2clcd) (b : Nat) (hbl : lcd.backlight < 2) (hb : b < 256) :
    lcd_write_cmnd lcd b = framerSpec lcd.lcd_address 0 lcd.backlight b := by
  obtain ⟨e1, e2, e3, e4, _, _, _, _⟩ := byteEqs lcd.backlight hbl b hb
  simp only [lcd_write_cmnd, framerSpec]
  rw [e1, e2, e3, e4]

/-- A data write is exactly the spec framer trace with RS=1. -/
lemma data_eq_framer (lcd : i2clcd) (b : Nat) (hbl : lcd.backlight < 2) (hb : b < 256) :
    lcd_write_data lcd b = framerSpec lcd.lcd_address 1 lcd.backlight b := by
  obtain ⟨_, _, _, _, e5, e6, e7, e8⟩ := byteEqs lcd.backlight hbl b hb
  simp only [lcd_write_data, framerSpec]
  rw [e5, e6, e7, e8]

lemma writesOf_append (t1 t2 : List Ev) :
    writesOf (t1 ++ t2) = writesOf t1 ++ writesOf t2 := by
  induction t1 with
  | nil => rfl
  | cons e t ih => cases e <;> simp [writesOf, ih]

lemma writesOf_framer (a rs bl b : Nat) :
    writesOf (framerSpec a rs bl b) =
      [framerByte (b / 16) rs 0 bl, framerByte (b / 16) rs 1 bl,
       framerByte (b / 16) rs 0 bl, framerByte (b % 16) rs 0 bl,
       framerByte (b % 16) rs 1 bl, framerByte (b % 16) rs 0 bl] := rfl

set_option maxRecDepth 8000 in
set_option maxHeartbeats 1000000 in
lemma bit3_framerByte : ∀ bl, bl < 2 → ∀ nib, nib < 16 → ∀ rs, rs < 2 → ∀ en, en < 2 →
    bit3 (framerByte nib rs en bl) = bl := by decide

lemma blok_append {bl : Nat} {t1 t2 : List Ev} (h1 : BLok bl t1) (h2 : BLok bl t2) :
    BLok bl (t1 ++ t2) := by
  intro w hw
  rw [writesOf_append, List.mem_append] at hw
  rcases hw with hw | hw
  · exact h1 w hw
  · exact h2 w hw

set_option maxHeartbeats 1000000 in
lemma blok_framer (a rs bl b : Nat) (hbl : bl < 2) (hrs : rs < 2) (hb : b < 256) :
    BLok bl (framerSpec a rs bl b) := by
  intro w hw
  rw [writesOf_framer] at hw
  have hhi : b / 16 < 16 := by omega
  have hlo : b % 16 < 16 := by omega
  simp only [List.mem_cons, List.not_mem_nil, or_false] at hw
  rcases hw with h | h | h | h | h | h <;> subst h <;>
    first
      | exact bit3_framerByte bl hbl _ hhi rs hrs _ (by omega)
      | exact bit3_framerByte bl hbl _ hlo rs hrs _ (by omega)

/-- Backlight correctness for a command write. -/
lemma blok_cmnd (lcd : i2clcd) (b : Nat) (hbl : lcd.backlight < 2) (hb : b < 256) :
    BLok lcd.backlight (lcd_write_cmnd lcd b) := by
  rw [cmnd_eq_framer lcd b hbl hb]
  exact blok_framer _ 0 _ b hbl (by omega) hb

/-- Backlight correctness for a data write. -/
lemma blok_data (lcd : i2clcd) (b : Nat) (hbl : lcd.backlight < 2) (hb : b < 256) :
    BLok lcd.backlight (lcd_write_data lcd b) := by
  rw [data_eq_framer lcd b hbl hb]
  exact blok_framer _ 1 _ b hbl (by omega) hb

lemma getD_append_lt : ∀ (s t : List Nat) (j : Nat), j < s.length →
    (s ++ t).getD j 0 = s.getD j 0 := by
  intro s
  induction s with
  | nil => intro t j hj; simp at hj
  | cons a s ih =>
    intro t j hj
    cases j with
    | zero => rfl
    | succ j => exact ih t j (by simpa using hj)

lemma getD_terminator : ∀ (s rest : List Nat), (s ++ 0 :: rest).getD s.length 0 = 0 := by
  intro s
  induction s with
  | nil => intro rest; rfl
  | cons a s ih => intro rest; exact ih rest

lemma getD_mem_of_lt : ∀ (s : List Nat) (j d : Nat), j < s.length → s.getD j d ∈ s := by
  intro s
  induction s with
  | nil => intro j d hj; simp at hj
  | cons a s ih =>
    intro j d hj
    cases j with
    | zero => exact List.mem_cons_self a s
    | succ j => exact List.mem_cons_of_mem a (ih j d (by simpa using hj))

lemma getD_mem_or : ∀ (s : List Nat) (j d : Nat), s.getD j d = d ∨ s.getD j d ∈ s := by
  intro s j d
  by_cases hj : j < s.length
  · exact Or.inr (getD_mem_of_lt s j d hj)
  · left
    rw [List.getD_eq_default]
    omega

lemma scanLoop_find : ∀ (fuel i k : Nat) (mem : List Nat), k < fuel →
    mem.getD (i + k) 0 = 0 → (∀ j, j < k → mem.getD (i + j) 0 ≠ 0) →
    scanLoop mem i fuel = some (i + k) := by
  intro fuel
  induction fuel with
  | zero => intro i k mem hk; omega
  | succ fuel ih =>
    intro i k mem hk h0 hj
    by_cases hz : mem.getD i 0 = 0
    · have hk0 : k = 0 := by
        by_contra hne
        exact hj 0 (by omega) (by simpa using hz)
      subst hk0
      simp only [scanLoop, if_pos hz, Nat.add_zero]
    · have hkpos : k ≠ 0 := by
        intro h
        subst h
        rw [Nat.add_zero] at h0
        exact hz h0
      obtain ⟨k', rfl⟩ : ∃ k', k = k' + 1 := ⟨k - 1, by omega⟩
      have h1 : i + 1 + k' = i + (k' + 1) := by omega
      have hrec := ih (i + 1) k' mem (by omega)
        (by rw [h1]; exact h0)
        (by
          intro j hjk
          have h2 : i + 1 + j = i + (j + 1) := by omega
          rw [h2]
          exact hj (j + 1) (by omega))
      simp only [scanLoop, if_neg hz]
      rw [hrec, h1]

lemma scan_concat (s rest : List Nat) (hlen : s.length < 256) (hs : ∀ b ∈ s, b ≠ 0) :
    scanLoop (s ++ 0 :: rest) 0 256 = some s.length := by
  have h := scanLoop_find 256 0 s.length (s ++ 0 :: rest) hlen
    (by rw [Nat.zero_add]; exact getD_terminator s rest)
    (by
      intro j hj
      rw [Nat.zero_add, getD_append_lt s (0 :: rest) j hj]
      exact hs _ (getD_mem_of_lt s j 0 hj))
  rwa [Nat.zero_add] at h

lemma range_map_getD {β : Type} : ∀ (s : List Nat) (g : Nat → β),
    (List.range s.length).map (fun i => g (s.getD i 0)) = s.map g := by
  intro s
  induction s with
  | nil => intro g; rfl
  | cons a s ih =>
    intro g
    simp only [List.length_cons, List.range_succ_eq_map, List.map_cons, List.map_map]
    refine congrArg (g a :: ·) ?_
    have : ((fun i => g ((a :: s).getD i 0)) ∘ Nat.succ) = fun i => g (s.getD i 0) := rfl
    rw [this, ih g]

lemma bit3_raw : ∀ bl, bl < 2 →
    bit3 ((0 <<< RS) ||| (1 <<< RW) ||| (0 <<< EN) ||| (bl <<< BL)) = bl ∧
    bit3 ((0 <<< RS) ||| (1 <<< RW) ||| (1 <<< EN) ||| (bl <<< BL)) = bl ∧
    bit3 ((0 <<< RS) ||| (0 <<< RW) ||| (0 <<< EN) ||| (bl <<< BL)) = bl ∧
    bit3 ((1 <<< RS) ||| (1 <<< RW) ||| (0 <<< EN) ||| (bl <<< BL)) = bl ∧
    bit3 ((1 <<< RS) ||| (1 <<< RW) ||| (1 <<< EN) ||| (bl <<< BL)) = bl := by decide

lemma blok_nil {bl : Nat} : BLok bl [] := by
  intro w hw
  simp [writesOf] at hw

lemma blok_flatten {bl : Nat} : ∀ (L : List (List Ev)), (∀ l ∈ L, BLok bl l) →
    BLok bl L.flatten := by
  intro L
  induction L with
  | nil => intro _; exact blok_nil
  | cons l L ih =>
    intro h
    rw [List.flatten_cons]
    exact blok_append (h l (List.mem_cons_self l L))
      (ih (fun x hx => h x (List.mem_cons_of_mem l hx)))

lemma blok_i2cInit_cons {bl : Nat} {t : List Ev} (h : BLok bl t) :
    BLok bl (Ev.i2cInit :: t) := h

lemma writesOf_replicate_ack (n : Nat) : writesOf (List.replicate n Ev.rdAck) = [] := by
  induction n with
  | zero => rfl
  | succ n ih => simpa [List.replicate_succ, writesOf] using ih

lemma blok_replicate_ack {bl : Nat} (n : Nat) : BLok bl (List.replicate n Ev.rdAck) := by
  intro w hw
  rw [writesOf_replicate_ack] at hw
  simp at hw

lemma shiftCmd_lt (d : Nat) : ((1 <<< 4) ||| ((d &&& 1) <<< 2)) < 256 := by
  rw [Nat.and_one_is_mod]
  rcases (by omega : d % 2 = 0 ∨ d % 2 = 1) with h | h <;> rw [h] <;> decide

/-- The full event trace of a DDRAM read, spelled out. -/
lemma read_ddram_trace (lcd : i2clcd) (bus : Nat → Nat) (address len dir : Nat) :
    (lcd_read_ddram lcd bus address len dir).2 =
      lcd_write_cmnd lcd ((1 <<< 4) ||| ((dir &&& 1) <<< 2)) ++
      lcd_write_cmnd lcd address ++
      [Ev.startWait (lcd.lcd_address + I2C_WRITE),
       Ev.wr ((1 <<< RS) ||| (1 <<< RW) ||| (0 <<< EN) ||| (lcd.backlight <<< BL)),
       Ev.wr ((1 <<< RS) ||| (1 <<< RW) ||| (1 <<< EN) ||| (lcd.backlight <<< BL)),
       Ev.startWait (lcd.lcd_address + I2C_READ)] ++
      List.replicate (((len : Int) - 1).toNat) Ev.rdAck ++
      [Ev.rdNak, Ev.startWait (lcd.lcd_address + I2C_WRITE),
       Ev.wr ((1 <<< RS) ||| (1 <<< RW) ||| (0 <<< EN) ||| (lcd.backlight <<< BL))] := rfl

lemma blok_read_mid (lcd : i2clcd) (hbl : lcd.backlight < 2) :
    BLok lcd.backlight
      [Ev.startWait (lcd.lcd_address + I2C_WRITE),
       Ev.wr ((1 <<< RS) ||| (1 <<< RW) ||| (0 <<< EN) ||| (lcd.backlight <<< BL)),
       Ev.wr ((1 <<< RS) ||| (1 <<< RW) ||| (1 <<< EN) ||| (lcd.backlight <<< BL)),
       Ev.startWait (lcd.lcd_address + I2C_READ)] := by
  intro w hw
  have hr := bit3_raw lcd.backlight hbl
  have hwr : writesOf
      [Ev.startWait (lcd.lcd_address + I2C_WRITE),
       Ev.wr ((1 <<< RS) ||| (1 <<< RW) ||| (0 <<< EN) ||| (lcd.backlight <<< BL)),
       Ev.wr ((1 <<< RS) ||| (1 <<< RW) ||| (1 <<< EN) ||| (lcd.backlight <<< BL)),
       Ev.startWait (lcd.lcd_address + I2C_READ)] =
      [(1 <<< RS) ||| (1 <<< RW) ||| (0 <<< EN) ||| (lcd.backlight <<< BL),
       (1 <<< RS) ||| (1 <<< RW) ||| (1 <<< EN) ||| (lcd.backlight <<< BL)] := rfl
  rw [hwr] at hw
  simp only [List.mem_cons, List.not_mem_nil, or_false] at hw
  rcases hw with h | h <;> subst h
  · exact hr.2.2.2.1
  · exact hr.2.2.2.2

lemma blok_read_tail (lcd : i2clcd) (hbl : lcd.backlight < 2) :
    BLok lcd.backlight
      [Ev.rdNak, Ev.startWait (lcd.lcd_address + I2C_WRITE),
       Ev.wr ((1 <<< RS) ||| (1 <<< RW) ||| (0 <<< EN) ||| (lcd.backlight <<< BL))] := by
  intro w hw
  have hr := bit3_raw lcd.backlight hbl
  have hwr : writesOf
      [Ev.rdNak, Ev.startWait (lcd.lcd_address + I2C_WRITE),
       Ev.wr ((1 <<< RS) ||| (1 <<< RW) ||| (0 <<< EN) ||| (lcd.backlight <<< BL))] =
      [(1 <<< RS) ||| (1 <<< RW) ||| (0 <<< EN) ||| (lcd.backlight <<< BL)] := rfl
  rw [hwr] at hw
  simp only [List.mem_cons, List.not_mem_nil, or_false] at hw
  subst hw
  exact hr.2.2.2.1

/-- C1: evaluating `lcd_init` at the failing input — cursor style (1,1)
stored on the handle before init — shows that the third bring-up command
is the constant 0x0C, not 0x0C with the stored cursor-visibility and blink
bits folded in (which would be 0x0F), and that the init trace does not
depend on the stored cursor/blink fields at all; the code's own comment
("Turn on the display with the cursor properties") and the otherwise-dead
`cursor`/`blink` fields mark this as a slip in the code. -/
theorem init_ignores_cursor_style :
    (lcd_cursor ⟨0, 0, 0, 0⟩ 1 1).cursor = 1 ∧
    (lcd_cursor ⟨0, 0, 0, 0⟩ 1 1).blink = 1 ∧
    (lcd_init (lcd_cursor ⟨0, 0, 0, 0⟩ 1 1) 78 1).2 =
      Ev.i2cInit ::
        (framerSpec 78 0 1 0x02 ++ framerSpec 78 0 1 0x28 ++ framerSpec 78 0 1 0x0C) ∧
    (lcd_init (lcd_cursor ⟨0, 0, 0, 0⟩ 1 1) 78 1).2 =
      (lcd_init (lcd_cursor ⟨0, 0, 0, 0⟩ 0 0) 78 1).2 ∧
    (0x0C ||| (1 <<< 1) ||| (1 <<< 0) : Nat) = 0x0F := by
  refine ⟨rfl, rfl, by decide, rfl, by decide⟩

/-- C2: each of the two write entry points issues exactly two three-write
I2C transactions — high nibble first, then low nibble, each with enable
pattern 0,1,0 around the nibble byte — with RW=0 in every byte, RS=0 for
the command entry point and RS=1 for the data entry point, and everything
else (the backlight bit) identical: both traces equal the spec framer
trace for the respective RS value. -/
theorem write_entry_points_refine_framer (lcd : i2clcd) (b : Nat)
    (hbl : lcd.backlight < 2) (hb : b < 256) :
    lcd_write_cmnd lcd b = framerSpec lcd.lcd_address 0 lcd.backlight b ∧
    lcd_write_data lcd b = framerSpec lcd.lcd_address 1 lcd.backlight b :=
  ⟨cmnd_eq_framer lcd b hbl hb, data_eq_framer lcd b hbl hb⟩

/-- Witness for C2 at a concrete handle and payload. -/
theorem write_entry_points_refine_framer_witness :
    (⟨78, 1, 0, 0⟩ : i2clcd).backlight < 2 ∧ (0xA5 : Nat) < 256 ∧
    (lcd_write_cmnd ⟨78, 1, 0, 0⟩ 0xA5 = framerSpec 78 0 1 0xA5 ∧
     lcd_write_data ⟨78, 1, 0, 0⟩ 0xA5 = framerSpec 78 1 1 0xA5) :=
  ⟨by decide, by decide,
   write_entry_points_refine_framer ⟨78, 1, 0, 0⟩ 0xA5 (by decide) (by decide)⟩

/-- C4: `lcd_setcursor` issues exactly one command write whose value is
the row-table entry plus the column, in 8-bit arithmetic, and performs no
other bus traffic; the table is {0x80, 0xC0, 0x94, 0xD4}. -/
theorem setcursor_ddram_address (lcd : i2clcd) (row col : Nat)
    (hrow : row < 4) (hcol : col < 256) (hbl : lcd.backlight < 2) :
    lcd_setcursor lcd row col =
      framerSpec lcd.lcd_address 0 lcd.backlight ((lines.getD row 0 + col) % 256) ∧
    lines = [0x80, 0xC0, 0x94, 0xD4] :=
  ⟨cmnd_eq_framer lcd _ hbl (Nat.mod_lt _ (by omega)), rfl⟩

/-- Witness for C4 at row 1, column 5. -/
theorem setcursor_ddram_address_witness :
    (1 : Nat) < 4 ∧ (5 : Nat) < 256 ∧ (⟨78, 1, 0, 0⟩ : i2clcd).backlight < 2 ∧
    (lcd_setcursor ⟨78, 1, 0, 0⟩ 1 5 =
        framerSpec 78 0 1 ((lines.getD 1 0 + 5) % 256) ∧
      lines = [0x80, 0xC0, 0x94, 0xD4]) :=
  ⟨by decide, by decide, by decide,
   setcursor_ddram_address ⟨78, 1, 0, 0⟩ 1 5 (by decide) (by decide) (by decide)⟩

/-- C9 counterexample: a handle whose backlight flag is 1, turned off with
backlight argument 0, writes all six bytes of its own 0x08 command with
bit 3 equal to 0 — the updated flag takes effect within this operation's
own command bytes, not only on the next write as the claim states. -/
theorem off_backlight_timing_counterexample :
    (⟨78, 1, 0, 0⟩ : i2clcd).backlight = 1 ∧
    (writesOf (lcd_off ⟨78, 1, 0, 0⟩ 0).2).map bit3 = [0, 0, 0, 0, 0, 0] :=
  ⟨rfl, by decide⟩

/-- C9 (amended): `lcd_off` issues exactly one command write, of value
0x08, updates the handle's backlight flag to the argument's low bit and
changes no other handle field; the updated flag is carried already in this
operation's own 0x08 command bytes. -/
theorem off_single_cmd_updates_backlight (lcd : i2clcd) (bl : Nat) :
    (lcd_off lcd bl).1.lcd_address = lcd.lcd_address ∧
    (lcd_off lcd bl).1.cursor = lcd.cursor ∧
    (lcd_off lcd bl).1.blink = lcd.blink ∧
    (lcd_off lcd bl).1.backlight = bl % 2 ∧
    (lcd_off lcd bl).2 = framerSpec lcd.lcd_address 0 (bl % 2) 0x08 := by
  have hm : bl &&& 1 = bl % 2 := Nat.and_one_is_mod bl
  have hlt : ({ lcd with backlight := bl &&& 1 } : i2clcd).backlight < 2 := by
    show bl &&& 1 < 2
    rw [hm]
    exact Nat.mod_lt bl (by omega)
  refine ⟨rfl, rfl, rfl, hm, ?_⟩
  have h := cmnd_eq_framer { lcd with backlight := bl &&& 1 } 0x08 hlt (by omega)
  rw [show (lcd_off lcd bl).2 = lcd_write_cmnd { lcd with backlight := bl &&& 1 } 0x08 from rfl,
    h]
  show framerSpec lcd.lcd_address 0 (bl &&& 1) 0x08 = framerSpec lcd.lcd_address 0 (bl % 2) 0x08
  rw [hm]

/-- C3: every byte written to the expander during any driver operation —
busy query, command write, data write, DDRAM read, and every higher-level
operation built from them — carries the handle's current backlight flag in
bit 3; for init and off, which update the flag before writing, the flag
carried is the updated one, i.e. the resulting handle's. -/
theorem backlight_bit_invariant (lcd : i2clcd) (hbl : lcd.backlight < 2) :
    (∀ busByte, BLok lcd.backlight (lcd_is_busy lcd busByte).2) ∧
    (∀ b, b < 256 → BLok lcd.backlight (lcd_write_cmnd lcd b)) ∧
    (∀ b, b < 256 → BLok lcd.backlight (lcd_write_data lcd b)) ∧
    (∀ bus address len dir, address < 256 →
      BLok lcd.backlight (lcd_read_ddram lcd bus address len dir).2) ∧
    (∀ pat address, (∀ j, j < 8 → pat j < 256) →
      BLok lcd.backlight (lcd_store_char lcd pat address)) ∧
    (∀ address, BLok lcd.backlight (lcd_print_char lcd address)) ∧
    BLok lcd.backlight (lcd_clear lcd) ∧
    (∀ row col, BLok lcd.backlight (lcd_setcursor lcd row col)) ∧
    (∀ mem t, (∀ b ∈ mem, b < 256) → lcd_print lcd mem = some t →
      BLok lcd.backlight t) ∧
    (∀ address bl, (lcd_init lcd address bl).1.backlight = bl % 2 ∧
      BLok (bl % 2) (lcd_init lcd address bl).2) ∧
    (∀ bl, (lcd_off lcd bl).1.backlight = bl % 2 ∧
      BLok (bl % 2) (lcd_off lcd bl).2) := by
  have hraw := bit3_raw lcd.backlight hbl
  refine ⟨?_, ?_, ?_, ?_, ?_, ?_, ?_, ?_, ?_, ?_, ?_⟩
  · intro busByte w hw
    have hwr : writesOf (lcd_is_busy lcd busByte).2 =
        [(0 <<< RS) ||| (1 <<< RW) ||| (0 <<< EN) ||| (lcd.backlight <<< BL),
         (0 <<< RS) ||| (1 <<< RW) ||| (1 <<< EN) ||| (lcd.backlight <<< BL),
         (0 <<< RS) ||| (0 <<< RW) ||| (0 <<< EN) ||| (lcd.backlight <<< BL)] := rfl
    rw [hwr] at hw
    simp only [List.mem_cons, List.not_mem_nil, or_false] at hw
    rcases hw with h | h | h <;> subst h
    · exact hraw.1
    · exact hraw.2.1
    · exact hraw.2.2.1
  · intro b hb
    exact blok_cmnd lcd b hbl hb
  · intro b hb
    exact blok_data lcd b hbl hb
  · intro bus address len dir haddr
    rw [read_ddram_trace]
    refine blok_append (blok_append (blok_append (blok_append ?_ ?_) ?_) ?_) ?_
    · exact blok_cmnd lcd _ hbl (shiftCmd_lt dir)
    · exact blok_cmnd lcd _ hbl haddr
    · exact blok_read_mid lcd hbl
    · exact blok_replicate_ack _
    · exact blok_read_tail lcd hbl
  · intro pat address hpat
    show BLok lcd.backlight (lcd_write_cmnd lcd (0x40 + address % 8 * 8) ++
      ((List.range 8).map (fun i => lcd_write_data lcd (pat i))).flatten)
    refine blok_append (blok_cmnd lcd _ hbl (by omega)) ?_
    refine blok_flatten _ ?_
    intro l hl
    obtain ⟨i, hi, rfl⟩ := List.mem_map.mp hl
    exact blok_data lcd _ hbl (hpat i (List.mem_range.mp hi))
  · intro address
    exact blok_data lcd _ hbl (by omega)
  · exact blok_cmnd lcd _ hbl (by omega)
  · intro row col
    exact blok_cmnd lcd _ hbl (Nat.mod_lt _ (by omega))
  · intro mem t hmem hpr
    unfold lcd_print at hpr
    cases h : scanLoop mem 0 256 with
    | none =>
      rw [h] at hpr
      exact absurd hpr (by simp)
    | some len =>
      rw [h] at hpr
      have ht := Option.some.inj hpr
      subst ht
      refine blok_flatten _ ?_
      intro l hl
      obtain ⟨i, hi, rfl⟩ := List.mem_map.mp hl
      rcases getD_mem_or mem i 0 with hg | hg
      · rw [hg]
        exact blok_data lcd _ hbl (by omega)
      · exact blok_data lcd _ hbl (hmem _ hg)
  · intro address bl
    have hm : bl &&& 1 = bl % 2 := Nat.and_one_is_mod bl
    have hlt : ({ lcd with lcd_address := address, backlight := bl &&& 1 } : i2clcd).backlight < 2 := by
      show bl &&& 1 < 2
      rw [hm]
      exact Nat.mod_lt bl (by omega)
    refine ⟨hm, ?_⟩
    rw [← hm]
    exact blok_i2cInit_cons
      (blok_append (blok_append
        (blok_cmnd { lcd with lcd_address := address, backlight := bl &&& 1 } _ hlt (by omega))
        (blok_cmnd { lcd with lcd_address := address, backlight := bl &&& 1 } _ hlt (by omega)))
        (blok_cmnd { lcd with lcd_address := address, backlight := bl &&& 1 } _ hlt (by omega)))
  · intro bl
    have hm : bl &&& 1 = bl % 2 := Nat.and_one_is_mod bl
    have hlt : ({ lcd with backlight := bl &&& 1 } : i2clcd).backlight < 2 := by
      show bl &&& 1 < 2
      rw [hm]
      exact Nat.mod_lt bl (by omega)
    refine ⟨hm, ?_⟩
    rw [← hm]
    exact blok_cmnd { lcd with backlight := bl &&& 1 } _ hlt (by omega)

/-- Witness for C3 at a concrete handle, command byte and data byte. -/
theorem backlight_bit_invariant_witness :
    (⟨78, 1, 0, 0⟩ : i2clcd).backlight < 2 ∧ (0x55 : Nat) < 256 ∧
    BLok 1 (lcd_write_cmnd ⟨78, 1, 0, 0⟩ 0x55) ∧
    BLok 1 (lcd_write_data ⟨78, 1, 0, 0⟩ 0x37) ∧
    BLok 1 (lcd_is_busy ⟨78, 1, 0, 0⟩ 0x80).2 := by
  have h := backlight_bit_invariant ⟨78, 1, 0, 0⟩ (by decide)
  exact ⟨by decide, by decide, h.2.1 0x55 (by decide), h.2.2.1 0x37 (by decide), h.1 0x80⟩

/-- C5: storing a glyph at any index issues the set-CGRAM-address command
0x40 + (index mod 8)·8 followed by exactly 8 data writes of the supplied
pattern bytes in order; printing a glyph issues a single data write of the
index mod 8; and both operations at index i are observably identical to
the same operations at index i mod 8 (wrap idempotence). -/
theorem glyph_store_print_mod8 (lcd : i2clcd) (pat : Nat → Nat) (i : Nat)
    (hbl : lcd.backlight < 2) (hpat : ∀ j, j < 8 → pat j < 256) :
    lcd_store_char lcd pat i =
      framerSpec lcd.lcd_address 0 lcd.backlight (0x40 + (i % 8) * 8) ++
        ((List.range 8).map
          (fun j => framerSpec lcd.lcd_address 1 lcd.backlight (pat j))).flatten ∧
    lcd_print_char lcd i = framerSpec lcd.lcd_address 1 lcd.backlight (i % 8) ∧
    lcd_store_char lcd pat i = lcd_store_char lcd pat (i % 8) ∧
    lcd_print_char lcd i = lcd_print_char lcd (i % 8) := by
  have h8 : i % 8 % 8 = i % 8 := by omega
  refine ⟨?_, ?_, ?_, ?_⟩
  · show lcd_write_cmnd lcd (0x40 + i % 8 * 8) ++
      ((List.range 8).map (fun j => lcd_write_data lcd (pat j))).flatten = _
    rw [cmnd_eq_framer lcd _ hbl (by omega)]
    refine congrArg (_ ++ ·) (congrArg List.flatten ?_)
    refine List.map_congr_left ?_
    intro j hj
    exact data_eq_framer lcd (pat j) hbl (hpat j (List.mem_range.mp hj))
  · exact data_eq_framer lcd _ hbl (by omega)
  · simp only [lcd_store_char, h8]
  · simp only [lcd_print_char, h8]

/-- Witness for C5 at index 11 (mod 8 = 3) with a concrete pattern. -/
theorem glyph_store_print_mod8_witness :
    (⟨78, 1, 0, 0⟩ : i2clcd).backlight < 2 ∧
    (lcd_store_char ⟨78, 1, 0, 0⟩ (fun j => j + 1) 11 =
        framerSpec 78 0 1 (0x40 + (11 % 8) * 8) ++
          ((List.range 8).map (fun j => framerSpec 78 1 1 (j + 1))).flatten ∧
      lcd_print_char ⟨78, 1, 0, 0⟩ 11 = framerSpec 78 1 1 (11 % 8) ∧
      lcd_store_char ⟨78, 1, 0, 0⟩ (fun j => j + 1) 11 =
        lcd_store_char ⟨78, 1, 0, 0⟩ (fun j => j + 1) (11 % 8) ∧
      lcd_print_char ⟨78, 1, 0, 0⟩ 11 = lcd_print_char ⟨78, 1, 0, 0⟩ (11 % 8)) :=
  ⟨by decide,
   glyph_store_print_mod8 ⟨78, 1, 0, 0⟩ (fun j => j + 1) 11 (by decide)
     (by intro j hj; show j + 1 < 256; omega)⟩

set_option maxRecDepth 40000 in
set_option maxHeartbeats 2000000 in
/-- C6 counterexample: a null-terminated sequence of 256 nonzero bytes;
the 8-bit scan index wraps before reaching the terminator, so the scan
loop never terminates and no data write is ever issued, while the claim
requires 256 data writes. -/
theorem print_long_string_counterexample :
    lcd_print ⟨78, 1, 0, 0⟩ (List.replicate 256 65 ++ [0]) = none ∧
    (List.replicate 256 65 : List Nat) ≠ [] := by
  constructor
  · rfl
  · decide

/-- C6 (amended): for every null-terminated byte sequence whose terminator
lies within the first 256 cells (fewer than 256 payload bytes), print
issues exactly one data write per byte preceding the terminator, in
sequence order, each with RS=1; in particular the empty sequence issues
zero data writes.  (For longer terminated sequences the 8-bit scan index
wraps and the scan loop never terminates.) -/
theorem print_writes_each_byte (lcd : i2clcd) (s rest : List Nat)
    (hlen : s.length < 256) (hs : ∀ b ∈ s, b ≠ 0 ∧ b < 256)
    (hbl : lcd.backlight < 2) :
    lcd_print lcd (s ++ 0 :: rest) =
      some ((s.map (fun b => framerSpec lcd.lcd_address 1 lcd.backlight b)).flatten) := by
  unfold lcd_print
  rw [scan_concat s rest hlen (fun b hb => (hs b hb).1)]
  refine congrArg some (congrArg List.flatten ?_)
  have step : (List.range s.length).map
      (fun i => lcd_write_data lcd ((s ++ 0 :: rest).getD i 0)) =
      (List.range s.length).map
      (fun i => framerSpec lcd.lcd_address 1 lcd.backlight (s.getD i 0)) := by
    refine List.map_congr_left ?_
    intro i hi
    have hilt : i < s.length := List.mem_range.mp hi
    rw [getD_append_lt s (0 :: rest) i hilt]
    exact data_eq_framer lcd _ hbl (hs _ (getD_mem_of_lt s i 0 hilt)).2
  rw [step, range_map_getD s (fun b => framerSpec lcd.lcd_address 1 lcd.backlight b)]

/-- Witness for C6: the two-byte sequence "AB" and the empty sequence. -/
theorem print_writes_each_byte_witness :
    ([65, 66] : List Nat).length < 256 ∧
    lcd_print ⟨78, 1, 0, 0⟩ [65, 66, 0] =
      some (([65, 66].map (fun b => framerSpec 78 1 1 b)).flatten) ∧
    lcd_print ⟨78, 1, 0, 0⟩ [0] = some [] :=
  ⟨by decide,
   print_writes_each_byte ⟨78, 1, 0, 0⟩ [65, 66] [] (by decide) (by decide) (by decide),
   print_writes_each_byte ⟨78, 1, 0, 0⟩ [] [] (by decide) (by decide) (by decide)⟩

/-- C7: for len ≥ 1, the DDRAM read issues the cursor/display-shift
command 0x10 with the direction (mod 2) at bit 2, then the set-DDRAM-
address command, then — after asserting RS=1,RW=1 with the enable pulse
and re-addressing for read — exactly len−1 acknowledged reads followed by
exactly one non-acknowledged read, stores the len bus bytes into the
buffer positions 0..len−1 in order, and finally re-addresses the device
for write. -/
theorem read_ddram_trace_spec (lcd : i2clcd) (bus : Nat → Nat)
    (address len dir : Nat) (hlen : 1 ≤ len) (haddr : address < 256)
    (hbl : lcd.backlight < 2) :
    (lcd_read_ddram lcd bus address len dir).2 =
      framerSpec lcd.lcd_address 0 lcd.backlight (0x10 ||| ((dir % 2) <<< 2)) ++
      framerSpec lcd.lcd_address 0 lcd.backlight address ++
      [Ev.startWait (lcd.lcd_address + I2C_WRITE),
       Ev.wr (lcd.backlight * 8 + 3), Ev.wr (lcd.backlight * 8 + 7),
       Ev.startWait (lcd.lcd_address + I2C_READ)] ++
      List.replicate (len - 1) Ev.rdAck ++
      [Ev.rdNak, Ev.startWait (lcd.lcd_address + I2C_WRITE),
       Ev.wr (lcd.backlight * 8 + 3)] ∧
    (lcd_read_ddram lcd bus address len dir).1 = (List.range len).map bus := by
  have hm : dir &&& 1 = dir % 2 := Nat.and_one_is_mod dir
  have hnack : ((len : Int) - 1).toNat = len - 1 := by omega
  have hb1 : (1 <<< RS) ||| (1 <<< RW) ||| (0 <<< EN) ||| (lcd.backlight <<< BL) =
      lcd.backlight * 8 + 3 := by
    rcases (by omega : lcd.backlight = 0 ∨ lcd.backlight = 1) with h | h <;> rw [h] <;> decide
  have hb2 : (1 <<< RS) ||| (1 <<< RW) ||| (1 <<< EN) ||| (lcd.backlight <<< BL) =
      lcd.backlight * 8 + 7 := by
    rcases (by omega : lcd.backlight = 0 ∨ lcd.backlight = 1) with h | h <;> rw [h] <;> decide
  constructor
  · rw [read_ddram_trace, hnack, hb1, hb2,
      cmnd_eq_framer lcd _ hbl (shiftCmd_lt dir),
      cmnd_eq_framer lcd address hbl haddr, hm,
      show (1 <<< 4 : Nat) = 16 from rfl,
      show (0x10 : Nat) = 16 from rfl]
  · show (List.range (((len : Int) - 1).toNat)).map bus ++ [bus (((len : Int) - 1).toNat)] = _
    rw [hnack]
    obtain ⟨len', rfl⟩ : ∃ l, len = l + 1 := ⟨len - 1, by omega⟩
    rw [List.range_succ]
    simp

/-- Witness for C7 at len 3. -/
theorem read_ddram_trace_spec_witness :
    (1 : Nat) ≤ 3 ∧ (0x40 : Nat) < 256 ∧
    ((lcd_read_ddram ⟨78, 1, 0, 0⟩ (fun n => n + 10) 0x40 3 1).2 =
        framerSpec 78 0 1 (0x10 ||| ((1 % 2) <<< 2)) ++
        framerSpec 78 0 1 0x40 ++
        [Ev.startWait (78 + I2C_WRITE), Ev.wr (1 * 8 + 3), Ev.wr (1 * 8 + 7),
         Ev.startWait (78 + I2C_READ)] ++
        List.replicate (3 - 1) Ev.rdAck ++
        [Ev.rdNak, Ev.startWait (78 + I2C_WRITE), Ev.wr (1 * 8 + 3)] ∧
      (lcd_read_ddram ⟨78, 1, 0, 0⟩ (fun n => n + 10) 0x40 3 1).1 =
        (List.range 3).map (fun n => n + 10)) :=
  ⟨by decide, by decide,
   read_ddram_trace_spec ⟨78, 1, 0, 0⟩ (fun n => n + 10) 0x40 3 1
     (by decide) (by decide) (by decide)⟩

set_option maxRecDepth 8000 in
set_option maxHeartbeats 1000000 in
/-- C8: the busy query performs the read cycle — address for write, write
RS=0,RW=1 with EN=0 then EN=1, re-address for read, pull exactly one byte
with a non-acknowledged read, re-address for write and write one byte with
RS=0,RW=0,EN=0 — and returns exactly the byte read masked with 0x80, which
is non-zero if and only if bit 7 of that byte is set. -/
theorem is_busy_read_cycle (lcd : i2clcd) (busByte : Nat)
    (hbl : lcd.backlight < 2) (hbus : busByte < 256) :
    (lcd_is_busy lcd busByte).2 =
      [Ev.startWait (lcd.lcd_address + I2C_WRITE),
       Ev.wr (lcd.backlight * 8 + 2), Ev.wr (lcd.backlight * 8 + 6),
       Ev.startWait (lcd.lcd_address + I2C_READ),
       Ev.rdNak,
       Ev.startWait (lcd.lcd_address + I2C_WRITE),
       Ev.wr (lcd.backlight * 8)] ∧
    (lcd_is_busy lcd busByte).1 = busByte &&& 0x80 ∧
    ((lcd_is_busy lcd busByte).1 ≠ 0 ↔ busByte.testBit 7) := by
  have hb1 : (0 <<< RS) ||| (1 <<< RW) ||| (0 <<< EN) ||| (lcd.backlight <<< BL) =
      lcd.backlight * 8 + 2 := by
    rcases (by omega : lcd.backlight = 0 ∨ lcd.backlight = 1) with h | h <;> rw [h] <;> decide
  have hb2 : (0 <<< RS) ||| (1 <<< RW) ||| (1 <<< EN) ||| (lcd.backlight <<< BL) =
      lcd.backlight * 8 + 6 := by
    rcases (by omega : lcd.backlight = 0 ∨ lcd.backlight = 1) with h | h <;> rw [h] <;> decide
  have hb3 : (0 <<< RS) ||| (0 <<< RW) ||| (0 <<< EN) ||| (lcd.backlight <<< BL) =
      lcd.backlight * 8 := by
    rcases (by omega : lcd.backlight = 0 ∨ lcd.backlight = 1) with h | h <;> rw [h] <;> decide
  refine ⟨?_, rfl, ?_⟩
  · show [Ev.startWait (lcd.lcd_address + I2C_WRITE),
       Ev.wr ((0 <<< RS) ||| (1 <<< RW) ||| (0 <<< EN) ||| (lcd.backlight <<< BL)),
       Ev.wr ((0 <<< RS) ||| (1 <<< RW) ||| (1 <<< EN) ||| (lcd.backlight <<< BL)),
       Ev.startWait (lcd.lcd_address + I2C_READ),
       Ev.rdNak,
       Ev.startWait (lcd.lcd_address + I2C_WRITE),
       Ev.wr ((0 <<< RS) ||| (0 <<< RW) ||| (0 <<< EN) ||| (lcd.backlight <<< BL))] = _
    rw [hb1, hb2, hb3]
  · show busByte &&& (1 <<< 7) ≠ 0 ↔ busByte.testBit 7
    revert hbus
    revert busByte
    decide

/-- Witness for C8 with a busy controller byte. -/
theorem is_busy_read_cycle_witness :
    (⟨78, 1, 0, 0⟩ : i2clcd).backlight < 2 ∧ (0x93 : Nat) < 256 ∧
    ((lcd_is_busy ⟨78, 1, 0, 0⟩ 0x93).2 =
        [Ev.startWait (78 + I2C_WRITE), Ev.wr (1 * 8 + 2), Ev.wr (1 * 8 + 6),
         Ev.startWait (78 + I2C_READ), Ev.rdNak,
         Ev.startWait (78 + I2C_WRITE), Ev.wr (1 * 8)] ∧
      (lcd_is_busy ⟨78, 1, 0, 0⟩ 0x93).1 = 0x93 &&& 0x80 ∧
      ((lcd_is_busy ⟨78, 1, 0, 0⟩ 0x93).1 ≠ 0 ↔ (0x93 : Nat).testBit 7)) :=
  ⟨by decide, by decide, is_busy_read_cycle ⟨78, 1, 0, 0⟩ 0x93 (by decide) (by decide)⟩

set_option maxRecDepth 4000 in
/-- C10: calling the DDRAM read with len = 0 runs the acknowledged-read
loop zero times (the promoted-integer loop bound does not wrap) but still
performs exactly one non-acknowledged read whose result is stored into
position 0 of the caller's buffer, so the buffer needs capacity for at
least one byte even when len is 0. -/
theorem read_ddram_len_zero (lcd : i2clcd) (bus : Nat → Nat) (address dir : Nat) :
    (lcd_read_ddram lcd bus address 0 dir).1 = [bus 0] ∧
    ((lcd_read_ddram lcd bus address 0 dir).2.countP isAck) = 0 ∧
    ((lcd_read_ddram lcd bus address 0 dir).2.countP isNak) = 1 := by
  exact ⟨rfl, rfl, rfl⟩
